import Mathlib

/-!
# Verification of the cryptox-sdk symmetric layer

Shallow embedding of the repository's symmetric-encryption framing layer:

* `src/symmetric/aes.ts`      — `AES`, the module-level helpers
  `_aesEncryptIV` / `_aesDecryptIV`, and `SymmetricKey`
  (key resolution, key/MAC-key slicing, `generateInitializationVector`);
* `src/symmetric/chacha20.ts` — `ChaCha20`;
* `src/symmetric/core.ts`     — `parseAlgorithmToEnum`, the `Algorithm`
  enum, and the chunked-transport `BlockCipher`;
* `src/symmetric/BlockCipher.ts` — the layered `BlockCipher` variant.

Strings are modelled as `List Char`; byte arrays as `List Nat` with an
explicit `% 256` wherever the JS `Uint8Array` store would mask.  UTF-8
encoding/decoding between the two is the identity on the code points the
claims exercise, so a message fed to HMAC is kept as `List Char`.
External collaborators (node `crypto` ciphers, HMAC-SHA512, SHA-256
digests, the JSON codec) are parameters of the definitions and theorems,
as the spec designates them external capabilities.
-/

namespace CryptoxSdk

/-- The reserved framing delimiter `"$::$"` from `aes.ts` / `chacha20.ts`. -/
def delim : List Char := ['$', ':', ':', '$']

/-- Does the string begin with the framing delimiter `"$::$"`? -/
def startsWithDelim (s : List Char) : Bool :=
  match s with
  | a :: b :: c :: d :: _ => a = '$' && b = ':' && c = ':' && d = '$'
  | _ => false

/-- JS `str.indexOf('$::$') >= 0`: does the string contain the framing
delimiter somewhere? -/
def hasDelim : List Char → Bool
  | [] => false
  | c :: rest => startsWithDelim (c :: rest) || hasDelim rest

/-- Worker for `jsSplit`: JS `String.prototype.split('$::$')` semantics —
scan left to right, emit the accumulated token at each non-overlapping
occurrence of the delimiter. -/
def jsSplitGo : List Char → List Char → List (List Char)
  | '$' :: ':' :: ':' :: '$' :: rest, acc => acc.reverse :: jsSplitGo rest []
  | c :: rest, acc => jsSplitGo rest (c :: acc)
  | [], acc => [acc.reverse]

/-- JS `str.split('$::$')`. -/
def jsSplit (s : List Char) : List (List Char) := jsSplitGo s []

/-- The whitespace class trimmed by JS `String.prototype.trim` (restricted
to the ASCII whitespace that can occur in this layer's data). -/
def isWs (c : Char) : Bool :=
  c = ' ' || c = '\t' || c = '\n' || c = '\r'

/-- JS `str.trim()`. -/
def jsTrim (s : List Char) : List Char :=
  ((s.dropWhile isWs).reverse.dropWhile isWs).reverse

/-- One lowercase hex digit as emitted by `XBuffer.toString('hex')`
(`('0' + byte.toString(16)).slice(-2)`, `buffer.ts`): values below ten
map to `'0'..'9'`, the rest to `'a'..'f'`. -/
def hexDigit (n : Nat) : Char :=
  if n % 16 < 10 then Char.ofNat ('0'.toNat + n % 16)
  else Char.ofNat ('a'.toNat + (n % 16 - 10))

/-- `XBuffer.fromUint8Array(bytes).toString('hex')`: two lowercase hex
digits per byte. -/
def hexEncode (bytes : List Nat) : List Char :=
  bytes.flatMap (fun b => [hexDigit (b / 16), hexDigit b])

theorem hexDigit_ne_dollar (n : Nat) : hexDigit n ≠ '$' := by
  unfold hexDigit
  have h : n % 16 < 16 := Nat.mod_lt _ (by norm_num)
  set m := n % 16 with hm
  interval_cases m <;> decide

theorem hexDigit_not_ws (n : Nat) : isWs (hexDigit n) = false := by
  unfold hexDigit
  have h : n % 16 < 16 := Nat.mod_lt _ (by norm_num)
  set m := n % 16 with hm
  interval_cases m <;> decide

theorem dollar_not_mem_hexEncode (bytes : List Nat) : '$' ∉ hexEncode bytes := by
  intro hmem
  simp only [hexEncode, List.mem_flatMap] at hmem
  obtain ⟨b, -, hb⟩ := hmem
  simp only [List.mem_cons, List.not_mem_nil, or_false] at hb
  rcases hb with h | h <;> exact hexDigit_ne_dollar _ h.symm

theorem dropWhile_ws_eq_self {s : List Char} (h : ∀ c ∈ s, isWs c = false) :
    s.dropWhile isWs = s := by
  cases s with
  | nil => rfl
  | cons c cs =>
    exact List.dropWhile_cons_of_neg (by simp [h c (by simp)])

theorem jsTrim_eq_self_of_no_ws {s : List Char} (h : ∀ c ∈ s, isWs c = false) :
    jsTrim s = s := by
  unfold jsTrim
  rw [dropWhile_ws_eq_self h,
    dropWhile_ws_eq_self (fun c hc => h c (List.mem_reverse.mp hc)),
    List.reverse_reverse]

theorem jsTrim_hexEncode (bytes : List Nat) : jsTrim (hexEncode bytes) = hexEncode bytes := by
  apply jsTrim_eq_self_of_no_ws
  intro c hc
  simp only [hexEncode, List.mem_flatMap] at hc
  obtain ⟨b, -, hb⟩ := hc
  simp only [List.mem_cons, List.not_mem_nil, or_false] at hb
  rcases hb with rfl | rfl <;> exact hexDigit_not_ws _

theorem startsWithDelim_cons_ne {c : Char} (hc : c ≠ '$') (l : List Char) :
    startsWithDelim (c :: l) = false := by
  rcases l with _ | ⟨b, _ | ⟨c2, _ | ⟨d, t⟩⟩⟩ <;> simp [startsWithDelim, hc]

/-- Unfolding of `jsSplitGo` at a delimiter occurrence. -/
theorem jsSplitGo_delim (rest acc : List Char) :
    jsSplitGo ('$' :: ':' :: ':' :: '$' :: rest) acc = acc.reverse :: jsSplitGo rest [] := rfl

/-- Unfolding of `jsSplitGo` when no delimiter starts at the current head. -/
theorem jsSplitGo_not_start {c : Char} {rest : List Char}
    (h : startsWithDelim (c :: rest) = false) (acc : List Char) :
    jsSplitGo (c :: rest) acc = jsSplitGo rest (c :: acc) := by
  rw [jsSplitGo.eq_def]
  split
  · rename_i heq
    rw [heq] at h
    simp [startsWithDelim] at h
  · rename_i heq
    injection heq with h1 h2
    subst h1; subst h2
    rfl
  · rename_i heq
    simp at heq

/-- Splitting a string that holds no delimiter yields a single token. -/
theorem jsSplitGo_no_delim (s : List Char) (h : hasDelim s = false) (acc : List Char) :
    jsSplitGo s acc = [acc.reverse ++ s] := by
  induction s generalizing acc with
  | nil => simp [jsSplitGo]
  | cons c rest ih =>
    rw [hasDelim] at h
    simp only [Bool.or_eq_false_iff] at h
    rw [jsSplitGo_not_start h.1, ih h.2]
    simp

/-- Splitting `a ++ "$::$" ++ r` when `a` contains no `'$'`: the first
delimiter occurrence is exactly the explicit one. -/
theorem jsSplitGo_append (a : List Char) (h : '$' ∉ a) (r acc : List Char) :
    jsSplitGo (a ++ delim ++ r) acc = (acc.reverse ++ a) :: jsSplitGo r [] := by
  induction a generalizing acc with
  | nil => simp [delim, jsSplitGo_delim]
  | cons c a' ih =>
    have hc : c ≠ '$' := fun hceq => h (by simp [hceq])
    have ha' : '$' ∉ a' := fun hmem => h (by simp [hmem])
    rw [List.cons_append, List.cons_append,
      jsSplitGo_not_start (startsWithDelim_cons_ne hc _), ih ha']
    simp

theorem hasDelim_append (a : List Char) (h : '$' ∉ a) (r : List Char) :
    hasDelim (a ++ delim ++ r) = true := by
  induction a with
  | nil => simp [delim, hasDelim, startsWithDelim]
  | cons c a' ih =>
    have hc : c ≠ '$' := fun hceq => h (by simp [hceq])
    have ha' : '$' ∉ a' := fun hmem => h (by simp [hmem])
    rw [List.cons_append, List.cons_append, hasDelim]
    rw [startsWithDelim_cons_ne hc, ih ha']
    rfl

/-! ## The authenticate-then-encrypt framing

`_aesEncryptIV` (aes.ts lines 13-48) computes
`sign = hmac(data, key.subarray(0, 8), 'sha512')`, frames the plaintext
as `hex(sign) + "$::$" + data`, and feeds the framed string to the
external cipher primitive.  `_aesDecryptIV` (lines 63-121) inverts the
primitive, rejects plaintext without the delimiter, destructures
`str.split('$::$').map(item => item.trim())` into `[signature, payload]`,
recomputes the HMAC over `payload`, and rejects on hex mismatch.
`ChaCha20.#DoEncryption` / `#DoDecryption` (chacha20.ts lines 22-83)
follow the identical framing protocol.  The HMAC collaborator `hm` and
the cipher primitive are parameters. -/

/-- The error taxonomy the decrypt path can surface. -/
inductive DecryptError where
  | malformed
  | tampered
  | deserialization
deriving DecidableEq, Repr

/-- The frozen `Decrypted<T>` result record of `core.ts`. -/
structure Decrypted (α : Type) where
  payload : α
  signature : List Nat
  timestamp : Nat
deriving DecidableEq, Repr

/-- `hex(signature) + "$::$" + payloadText`, the framed plaintext built by
`_aesEncryptIV` / `ChaCha20.#DoEncryption`. -/
def framePlaintext (hm : List Char → List Nat → List Nat) (key : List Nat)
    (data : List Char) : List Char :=
  hexEncode (hm data (key.take 8)) ++ delim ++ data

/-- `str.split('$::$').map(item => item.trim())[0]` — the embedded hex
signature extracted on decrypt. -/
def embeddedSignatureHex (pt : List Char) : List Char :=
  jsTrim ((jsSplit pt).getD 0 [])

/-- `str.split('$::$').map(item => item.trim())[1]` — the payload text
extracted on decrypt.  JS array destructuring takes element 1 of the
full split, not the whole remainder after the first delimiter. -/
def extractedPayloadText (pt : List Char) : List Char :=
  jsTrim ((jsSplit pt).getD 1 [])

/-- The post-primitive logic of `_aesDecryptIV` (aes.ts lines 73-86) and
`ChaCha20.#DoDecryption` (chacha20.ts lines 59-76): delimiter check,
split/trim, HMAC recomputation and comparison. -/
def decryptFraming (hm : List Char → List Nat → List Nat) (key : List Nat)
    (pt : List Char) : Except DecryptError (List Nat × List Char) :=
  if hasDelim pt = false then .error .malformed
  else
    let signature := embeddedSignatureHex pt
    let payload := extractedPayloadText pt
    let sign := hm payload (key.take 8)
    if hexEncode sign ≠ signature then .error .tampered
    else .ok (sign, payload)

/-- `_aesEncryptIV` with the external cipher primitive `Ep` abstracted:
frame, then encrypt. -/
def aesEncryptIVModel (Ep : List Char → List Nat) (hm : List Char → List Nat → List Nat)
    (key : List Nat) (data : List Char) : List Nat :=
  Ep (framePlaintext hm key data)

/-- `_aesDecryptIV` with the external decipher primitive `Dp` abstracted:
decrypt, then run the framing checks. -/
def aesDecryptIVModel (Dp : List Nat → List Char) (hm : List Char → List Nat → List Nat)
    (key : List Nat) (ct : List Nat) : Except DecryptError (List Nat × List Char) :=
  decryptFraming hm key (Dp ct)

/-- `AES.#DoEncryption` after the data-type guard: serialize the payload
(JSON collaborator `stringify`), then run `_aesEncryptIV`. -/
def doEncryption {α : Type} (Ep : List Char → List Nat)
    (hm : List Char → List Nat → List Nat) (stringify : α → List Char)
    (key : List Nat) (P : α) : List Nat :=
  aesEncryptIVModel Ep hm key (stringify P)

/-- `AES.#DoDecryption` / `ChaCha20.#DoDecryption`: run the framing
checks, `JSON.parse` the payload text, freeze the `Decrypted` record. -/
def doDecryption {α : Type} (Dp : List Nat → List Char)
    (hm : List Char → List Nat → List Nat) (parse : List Char → Option α)
    (key : List Nat) (ct : List Nat) (now : Nat) : Except DecryptError (Decrypted α) :=
  match aesDecryptIVModel Dp hm key ct with
  | .error e => .error e
  | .ok (sign, payload) =>
    match parse payload with
    | none => .error .deserialization
    | some p => .ok ⟨p, sign, now⟩

/-- Splitting a framed plaintext whose payload holds no delimiter
recovers exactly the embedded signature and the (trimmed) payload. -/
theorem split_frame (sig : List Nat) (data : List Char) (hnd : hasDelim data = false) :
    jsSplit (hexEncode sig ++ delim ++ data) = [hexEncode sig, data] := by
  unfold jsSplit
  rw [jsSplitGo_append _ (dollar_not_mem_hexEncode sig),
    jsSplitGo_no_delim _ hnd]
  simp

theorem embeddedSignatureHex_frame (sig : List Nat) (data : List Char)
    (hnd : hasDelim data = false) :
    embeddedSignatureHex (hexEncode sig ++ delim ++ data) = hexEncode sig := by
  unfold embeddedSignatureHex
  rw [split_frame _ _ hnd]
  exact jsTrim_hexEncode sig

theorem extractedPayloadText_frame (sig : List Nat) (data : List Char)
    (hnd : hasDelim data = false) :
    extractedPayloadText (hexEncode sig ++ delim ++ data) = jsTrim data := by
  unfold extractedPayloadText
  rw [split_frame _ _ hnd]
  rfl

/-- Framing round trip: when the payload text holds no delimiter and is
trim-stable, the decrypt-side framing checks accept a framed plaintext
and return the recomputed signature together with the payload text. -/
theorem decryptFraming_frame (hm : List Char → List Nat → List Nat)
    (key : List Nat) (data : List Char)
    (hnd : hasDelim data = false) (htrim : jsTrim data = data) :
    decryptFraming hm key (framePlaintext hm key data) =
      .ok (hm data (key.take 8), data) := by
  unfold decryptFraming framePlaintext
  rw [hasDelim_append _ (dollar_not_mem_hexEncode _) _]
  simp only [Bool.true_eq_false, if_false]
  rw [embeddedSignatureHex_frame _ _ hnd, extractedPayloadText_frame _ _ hnd, htrim]
  simp

/-! ## Claims C1, C2, C7 — the framing protocol -/

/-- C1 (counterexample): the round trip is NOT the identity for every
JSON-serializable payload.  A payload whose serialized text contains the
reserved delimiter `"$::$"` is truncated by the decrypt-side
`str.split('$::$')` destructuring, so the recomputed HMAC is taken over
a different text than the embedded one and decrypt fails with the
tampered-data error instead of returning the payload.  Concretely: the
serialized payload text `"x$::$y"`, a 32-byte key, an invertible cipher
primitive and a length-based stand-in for the HMAC collaborator. -/
theorem C1_roundTrip_counterexample :
    doDecryption (fun l => l.map Char.ofNat) (fun s _ => [s.length % 256]) some
        (List.range 32)
        (doEncryption (fun s => s.map Char.toNat) (fun s _ => [s.length % 256]) id
          (List.range 32) "x$::$y".toList) 7 =
      .error .tampered := by
  rfl

/-- C1 (amended): for every algorithm's cipher primitive `Ep`/`Dp` that
is invertible on the framed plaintext, every HMAC collaborator `hm`,
every key, and every payload whose serialized JSON text does not contain
the delimiter `"$::$"` (and is trim-stable, as `JSON.stringify` output
is), decrypting the ciphertext produced by encrypt returns the payload
`P` unchanged, and the signature recomputed during decrypt equals —
in hex — the one embedded during encrypt. -/
theorem C1_roundTrip {α : Type} (Ep : List Char → List Nat) (Dp : List Nat → List Char)
    (hm : List Char → List Nat → List Nat) (stringify : α → List Char)
    (parse : List Char → Option α) (key : List Nat) (P : α) (now : Nat)
    (hED : Dp (Ep (framePlaintext hm key (stringify P))) = framePlaintext hm key (stringify P))
    (hnd : hasDelim (stringify P) = false)
    (htrim : jsTrim (stringify P) = stringify P)
    (hparse : parse (stringify P) = some P) :
    doDecryption Dp hm parse key (doEncryption Ep hm stringify key P) now =
      .ok ⟨P, hm (stringify P) (key.take 8), now⟩ ∧
    hexEncode (hm (stringify P) (key.take 8)) =
      embeddedSignatureHex (framePlaintext hm key (stringify P)) := by
  constructor
  · unfold doDecryption doEncryption aesDecryptIVModel aesEncryptIVModel
    rw [hED, decryptFraming_frame hm key _ hnd htrim]
    simp [hparse]
  · unfold framePlaintext
    rw [embeddedSignatureHex_frame _ _ hnd]

/-- C1 (witness): the amended round trip at a concrete instantiation —
payload text `{"msg":"hello"}`, 32-byte key, code-point cipher primitive,
length-based HMAC stand-in. -/
theorem C1_roundTrip_witness :
    doDecryption (fun l => l.map Char.ofNat) (fun s _ => [s.length % 256]) some
        (List.range 32)
        (doEncryption (fun s => s.map Char.toNat) (fun s _ => [s.length % 256]) id
          (List.range 32) "\x7b\"msg\":\"hello\"\x7d".toList) 7 =
      .ok ⟨"\x7b\"msg\":\"hello\"\x7d".toList, [15], 7⟩ ∧
    hexEncode [15] =
      embeddedSignatureHex (framePlaintext (fun s _ => [s.length % 256])
        (List.range 32) "\x7b\"msg\":\"hello\"\x7d".toList) :=
  C1_roundTrip (fun s => s.map Char.toNat) (fun l => l.map Char.ofNat)
    (fun s _ => [s.length % 256]) id some (List.range 32)
    "\x7b\"msg\":\"hello\"\x7d".toList 7 (by decide) (by decide) (by decide) (by decide)

/-- C2: whenever the decrypted plaintext contains the delimiter but the
HMAC recomputed over the extracted payload text (keyed with the first 8
bytes of the encryption key) differs in hex from the embedded signature,
decrypt fails with the tampered-data error and never returns a result. -/
theorem C2_tamperDetection {α : Type} (Dp : List Nat → List Char)
    (hm : List Char → List Nat → List Nat) (parse : List Char → Option α)
    (key : List Nat) (ct : List Nat) (now : Nat)
    (hdelim : hasDelim (Dp ct) = true)
    (hsig : hexEncode (hm (extractedPayloadText (Dp ct)) (key.take 8)) ≠
      embeddedSignatureHex (Dp ct)) :
    doDecryption Dp hm parse key ct now = .error .tampered := by
  unfold doDecryption aesDecryptIVModel decryptFraming
  rw [hdelim]
  simp [hsig]

/-- C2 (witness): a concrete tampered plaintext `"00$::$xyz"` whose
recomputed signature hex `"03"` differs from the embedded `"00"`. -/
theorem C2_tamperDetection_witness :
    hasDelim "00$::$xyz".toList = true ∧
    hexEncode ((fun (s : List Char) (_ : List Nat) => [s.length % 256])
        (extractedPayloadText "00$::$xyz".toList) (([] : List Nat).take 8)) ≠
      embeddedSignatureHex "00$::$xyz".toList ∧
    doDecryption (α := List Char) (fun _ => "00$::$xyz".toList)
        (fun s _ => [s.length % 256]) some [] [] 0 =
      .error .tampered :=
  ⟨by decide, by decide,
    C2_tamperDetection (fun _ => "00$::$xyz".toList) (fun s _ => [s.length % 256])
      some [] [] 0 (by decide) (by decide)⟩

/-- Modelled from the spec: "Split on the **first** occurrence of the
delimiter into `(signatureHex, payloadText)`" with `payloadText` the
entire remainder of the plaintext after that first occurrence.  This is
the claim-side reference the code is compared against. -/
def specRemainderAfterFirstDelim : List Char → List Char
  | [] => []
  | c :: rest =>
    if startsWithDelim (c :: rest) then rest.drop 3
    else specRemainderAfterFirstDelim rest

/-- C7 (counterexample): on the plaintext `"ab$::$cd$::$ef"` the code's
extracted payload text is `"cd"` — the segment between the first and
second delimiter occurrences — not the entire remainder `"cd$::$ef"`
after the first occurrence that the claim demands. -/
theorem C7_splitFirst_counterexample :
    extractedPayloadText "ab$::$cd$::$ef".toList = "cd".toList ∧
    specRemainderAfterFirstDelim "ab$::$cd$::$ef".toList = "cd$::$ef".toList ∧
    extractedPayloadText "ab$::$cd$::$ef".toList ≠
      specRemainderAfterFirstDelim "ab$::$cd$::$ef".toList := by
  refine ⟨by decide, by decide, by decide⟩

/-- C7 (amended): `str.split('$::$')` splits on every occurrence of the
delimiter, and the destructuring takes elements 0 and 1: the plaintext
`a ++ "$::$" ++ b ++ "$::$" ++ r` (with `a`, `b` free of `'$'`) is
resolved to signature `trim a` and payload `trim b`; the text after the
second delimiter occurrence is discarded, not kept in the payload. -/
theorem C7_splitFirst (a b r : List Char) (ha : '$' ∉ a) (hb : '$' ∉ b) :
    embeddedSignatureHex (a ++ delim ++ (b ++ delim ++ r)) = jsTrim a ∧
    extractedPayloadText (a ++ delim ++ (b ++ delim ++ r)) = jsTrim b := by
  unfold embeddedSignatureHex extractedPayloadText jsSplit
  rw [jsSplitGo_append _ ha, jsSplitGo_append _ hb]
  exact ⟨rfl, rfl⟩

/-- C7 (witness): the amended split behavior at
`"ab" ++ "$::$" ++ "cd" ++ "$::$" ++ "ef"`. -/
theorem C7_splitFirst_witness :
    '$' ∉ "ab".toList ∧ '$' ∉ "cd".toList ∧
    (embeddedSignatureHex ("ab".toList ++ delim ++ ("cd".toList ++ delim ++ "ef".toList)) =
        jsTrim "ab".toList ∧
      extractedPayloadText ("ab".toList ++ delim ++ ("cd".toList ++ delim ++ "ef".toList)) =
        jsTrim "cd".toList) :=
  ⟨by decide, by decide,
    C7_splitFirst "ab".toList "cd".toList "ef".toList (by decide) (by decide)⟩

/-! ## SymmetricKey: algorithm resolution, key slicing, IV derivation

`core.ts` declares the const enum `Algorithm` (numeric values in
declaration order) and `parseAlgorithmToEnum`; `SymmetricKey.ts`'s
constructor resolves the options to `(algorithm, requiredKeyLength)`,
slices the raw bytes into encryption key and optional MAC key, and
provides `generateInitializationVector`. -/

/-- The runtime value handed to `parseAlgorithmToEnum`: `undefined`
(also standing for any value that is neither string nor number), a raw
number, or a string name. -/
inductive JsAlgValue where
  | undef
  | num (n : Nat)
  | str (s : String)
deriving DecidableEq, Repr

/-- `options.algorithm`: either a primitive (string/number) or a
`{ name, length }` object for custom algorithms. -/
inductive AlgorithmOption where
  | prim (v : JsAlgValue)
  | obj (name : JsAlgValue) (length : Option Nat)
deriving DecidableEq, Repr

/-- `SymmetricKeyOptions` (the `usages` field is irrelevant to the
claims and omitted). -/
structure SymmetricKeyOptions where
  algorithm : Option AlgorithmOption
deriving DecidableEq, Repr

/-- `parseAlgorithmToEnum` (core.ts lines 38-61).  Enum values follow
the declaration order of the const enum `Algorithm`:
`AES_256_CBC = 0, AES_256_GCM = 1, AES_256_CBC_HMAC_SHA512 = 2,
CHACHA20_POLY1305 = 3, AES_128_CBC = 4, AES_128_GCM = 5`.  A number is
returned as-is; an unrecognized string throws. -/
def parseAlgorithmToEnum : JsAlgValue → Except String Nat
  | .undef => .error "Algorithm must be a string or a number"
  | .num n => .ok n
  | .str s =>
    if s = "aes-128-cbc" then .ok 4
    else if s = "aes-128-gcm" then .ok 5
    else if s = "aes-256-cbc" then .ok 0
    else if s = "aes-256-gcm" then .ok 1
    else if s = "aes-256-cbc-hmac-sha512" then .ok 2
    else if s = "chacha20-poly1305" then .ok 3
    else .error ("Unsupported algorithm: " ++ s)

/-- The resolved `this.algorithm`: one of the six known identifier
strings, or — through the default branch — the raw numeric enum value
of a custom algorithm. -/
inductive AlgId where
  | known (s : String)
  | custom (n : Nat)
deriving DecidableEq, Repr

/-- The switch of the `SymmetricKey` constructor (SymmetricKey.ts lines
271-310): resolve `(this.algorithm, this.length)` from the options, or
throw.  The default branch accepts only a `{ name, length }` object
with a truthy `length`. -/
def resolveAlgorithm (opts : SymmetricKeyOptions) : Except String (AlgId × Nat) :=
  let v := match opts.algorithm with
    | none => JsAlgValue.undef
    | some (.prim p) => p
    | some (.obj nm _) => nm
  match parseAlgorithmToEnum v with
  | .error e => .error e
  | .ok alg =>
    if alg = 4 then .ok (.known "aes-128-cbc", 16)
    else if alg = 0 then .ok (.known "aes-256-cbc", 32)
    else if alg = 5 then .ok (.known "aes-128-gcm", 16)
    else if alg = 2 then .ok (.known "aes-256-cbc-hmac-sha512", 32)
    else if alg = 1 then .ok (.known "aes-256-gcm", 32)
    else if alg = 3 then .ok (.known "chacha20-poly1305", 32)
    else
      match opts.algorithm with
      | some (.obj _ (some len)) =>
        if len = 0 then .error ("Unsupported algorithm: " ++ toString alg)
        else .ok (.custom alg, len)
      | _ => .error ("Unsupported algorithm: " ++ toString alg)

/-- The immutable state of a constructed `SymmetricKey`: resolved
algorithm, required key length, sliced encryption key (`this.key`),
optional MAC key (`this.hmacKey`), and the untouched raw bytes
(`this.#original`). -/
structure SymmetricKeyModel where
  algorithm : AlgId
  length : Nat
  key : List Nat
  hmacKey : Option (List Nat)
  original : List Nat
deriving DecidableEq, Repr

/-- The `SymmetricKey` constructor (SymmetricKey.ts lines 265-338):
algorithm resolution followed by the key/MAC-key slicing
`if (key.byteLength > this.length) { key.slice(0, this.length) /
key.slice(this.length) } else { this.key = key }`. -/
def symmetricKeyCtor (raw : List Nat) (opts : SymmetricKeyOptions) :
    Except String SymmetricKeyModel :=
  match resolveAlgorithm opts with
  | .error e => .error e
  | .ok (alg, len) =>
    if raw.length > len then .ok ⟨alg, len, raw.take len, some (raw.drop len), raw⟩
    else .ok ⟨alg, len, raw, none, raw⟩

/-- A JS `Uint8Array` indexed store: writes inside bounds mask to a
byte, writes out of bounds are silently discarded. -/
def u8set (arr : List Nat) (i v : Nat) : List Nat :=
  if i < arr.length then arr.set i (v % 256) else arr

/-- The second loop of `generateInitializationVector` (SymmetricKey.ts
lines 362-364): `for (i = output.length; i < stopLength; i++)
output[i] = this.#original[i % output.length] & 0xff | 0x80` — every
write targets an index at or past the end of the fixed-size output
array. -/
def givExtendLoop (original arr : List Nat) (start stop : Nat) : List Nat :=
  (List.range' start (stop - start)).foldl
    (fun a i => u8set a i (((original.getD (i % a.length) 0) &&& 0xff) ||| 0x80)) arr

/-- The first loop of `generateInitializationVector` (lines 353-357):
the XOR half-fold of the raw bytes, `output[i] = #original[i] ^
#original[i + this.length / 2]` over a fresh `Uint8Array(this.length/2)`
(an out-of-range read yields `undefined`, coerced to 0 by `^`). -/
def givFold (k : SymmetricKeyModel) : List Nat :=
  (List.range (k.length / 2)).map
    (fun i => ((k.original.getD i 0) ^^^ (k.original.getD (i + k.length / 2) 0)) % 256)

/-- `SymmetricKey.generateInitializationVector(stopLength?)`
(SymmetricKey.ts lines 352-367): XOR half-fold; return it when
`stopLength` is absent or `< 1`; truncate when the fold is longer than
`stopLength`; otherwise run the extension loop. -/
def generateInitializationVector (k : SymmetricKeyModel) (stopLength : Option Nat) :
    List Nat :=
  let output := givFold k
  match stopLength with
  | none => output
  | some s =>
    if s < 1 then output
    else if output.length > s then output.take s
    else givExtendLoop k.original output output.length s

theorem u8set_oob {arr : List Nat} {i : Nat} (h : arr.length ≤ i) (v : Nat) :
    u8set arr i v = arr := by
  unfold u8set
  rw [if_neg (by omega)]

/-- The extension loop never changes the array: every write is out of
bounds. -/
theorem givExtendLoop_eq (original arr : List Nat) (stop : Nat) :
    givExtendLoop original arr arr.length stop = arr := by
  unfold givExtendLoop
  have key : ∀ (l : List Nat), (∀ i ∈ l, arr.length ≤ i) →
      l.foldl (fun a i => u8set a i (((original.getD (i % a.length) 0) &&& 0xff) ||| 0x80)) arr
        = arr := by
    intro l
    induction l with
    | nil => intro _; rfl
    | cons i t ih =>
      intro h
      rw [List.foldl_cons, u8set_oob (h i (by simp))]
      exact ih (fun j hj => h j (by simp [hj]))
  refine key _ (fun i hi => ?_)
  have := List.mem_range'_1.mp hi
  omega

/-! ## Claims C3, C5, C8, C9 — SymmetricKey behavior -/

/-- C3 (counterexample): `deriveIV` does NOT extend to a larger
`targetLength`.  For an `aes-256-cbc` key over raw bytes `0..31`
(`requiredKeyLength = 32`, fold length 16), requesting `stopLength = 20`
still returns 16 bytes: the extension loop writes past the end of the
fixed-size `Uint8Array`, which JS silently discards. -/
theorem C3_deriveIV_counterexample :
    (symmetricKeyCtor (List.range 32) ⟨some (.prim (.str "aes-256-cbc"))⟩).map
        (fun k => (generateInitializationVector k (some 20)).length) = .ok 16 ∧
    (16 : Nat) ≠ 20 := by
  exact ⟨rfl, by decide⟩

/-- C3 (amended): `generateInitializationVector` returns the XOR
half-fold `output[i] = rawBytes[i] ^ rawBytes[i + requiredKeyLength/2]`
of length `requiredKeyLength/2`; a smaller `stopLength ≥ 1` truncates
to `stopLength`; a `stopLength` at or above the fold length returns the
fold unchanged — the extension loop's out-of-bounds writes are no-ops,
so the result is never extended. -/
theorem C3_deriveIV (k : SymmetricKeyModel) (s : Nat) (hs : 1 ≤ s) :
    (generateInitializationVector k none).length = k.length / 2 ∧
    (∀ i, i < k.length / 2 → (generateInitializationVector k none).getD i 0 =
      ((k.original.getD i 0) ^^^ (k.original.getD (i + k.length / 2) 0)) % 256) ∧
    (k.length / 2 > s → generateInitializationVector k (some s) =
      (generateInitializationVector k none).take s) ∧
    (k.length / 2 ≤ s → generateInitializationVector k (some s) =
      generateInitializationVector k none) := by
  have hnone : generateInitializationVector k none = givFold k := rfl
  have hlen : (givFold k).length = k.length / 2 := by simp [givFold]
  have hsome : generateInitializationVector k (some s) =
      if s < 1 then givFold k
      else if (givFold k).length > s then (givFold k).take s
      else givExtendLoop k.original (givFold k) (givFold k).length s := rfl
  refine ⟨by rw [hnone, hlen], ?_, ?_, ?_⟩
  · intro i hi
    rw [hnone]
    unfold givFold
    rw [List.getD_eq_getElem _ _ (by simpa using hi)]
    simp
  · intro hgt
    rw [hnone, hsome, if_neg (by omega), if_pos (by rw [hlen]; omega)]
  · intro hge
    rw [hnone, hsome, if_neg (by omega), if_neg (by rw [hlen]; omega), givExtendLoop_eq]

/-- C3 (witness): the amended behavior at the concrete `aes-256-cbc`
key over raw bytes `0..31` with `stopLength = 20`. -/
theorem C3_deriveIV_witness :
    1 ≤ 20 ∧
    ((generateInitializationVector
        ⟨.known "aes-256-cbc", 32, List.range 32, none, List.range 32⟩ none).length =
      32 / 2 ∧
    (∀ i, i < 32 / 2 →
      (generateInitializationVector
          ⟨.known "aes-256-cbc", 32, List.range 32, none, List.range 32⟩ none).getD i 0 =
        (((List.range 32).getD i 0) ^^^ ((List.range 32).getD (i + 32 / 2) 0)) % 256) ∧
    (32 / 2 > 20 → generateInitializationVector
        ⟨.known "aes-256-cbc", 32, List.range 32, none, List.range 32⟩ (some 20) =
      (generateInitializationVector
        ⟨.known "aes-256-cbc", 32, List.range 32, none, List.range 32⟩ none).take 20) ∧
    (32 / 2 ≤ 20 → generateInitializationVector
        ⟨.known "aes-256-cbc", 32, List.range 32, none, List.range 32⟩ (some 20) =
      generateInitializationVector
        ⟨.known "aes-256-cbc", 32, List.range 32, none, List.range 32⟩ none)) :=
  ⟨by decide,
    C3_deriveIV ⟨.known "aes-256-cbc", 32, List.range 32, none, List.range 32⟩ 20 (by decide)⟩

/-- C5 (counterexample): constructing key material with the explicit
custom algorithm `{ name: "des-ede3", length: 24 }` does NOT succeed:
`parseAlgorithmToEnum` throws on the unrecognized string before the
constructor's custom-algorithm branch can record name and length. -/
theorem C5_customAlgorithm_counterexample :
    symmetricKeyCtor (List.range 24) ⟨some (.obj (.str "des-ede3") (some 24))⟩ =
      .error "Unsupported algorithm: des-ede3" := by
  rfl

/-- C5 (amended): an algorithm NAME that is not one of the six known
identifiers always fails construction — with or without an explicit
length — because `parseAlgorithmToEnum` throws on any unrecognized
string; in particular `"des-ede3"` fails before any key material is
touched.  The custom `{ name, length }` branch is reachable only for a
numeric algorithm value outside the known enum range, where
construction succeeds exactly when a non-zero length is supplied,
recording that value and length. -/
theorem C5_algorithmResolution (raw : List Nat) (s : String) (lopt : Option Nat)
    (n l : Nat)
    (hs : s ∉ ["aes-128-cbc", "aes-128-gcm", "aes-256-cbc", "aes-256-gcm",
      "aes-256-cbc-hmac-sha512", "chacha20-poly1305"])
    (hn : 6 ≤ n) (hl : l ≠ 0) :
    symmetricKeyCtor raw ⟨some (.obj (.str s) lopt)⟩ =
      .error ("Unsupported algorithm: " ++ s) ∧
    symmetricKeyCtor raw ⟨some (.prim (.str s))⟩ =
      .error ("Unsupported algorithm: " ++ s) ∧
    (∃ k, symmetricKeyCtor raw ⟨some (.obj (.num n) (some l))⟩ = .ok k ∧
      k.algorithm = .custom n ∧ k.length = l) := by
  simp only [List.mem_cons, List.not_mem_nil, or_false] at hs
  push_neg at hs
  obtain ⟨h1, h2, h3, h4, h5, h6⟩ := hs
  have hparse : parseAlgorithmToEnum (.str s) = .error ("Unsupported algorithm: " ++ s) := by
    simp [parseAlgorithmToEnum, h1, h2, h3, h4, h5, h6]
  refine ⟨?_, ?_, ?_⟩
  · simp [symmetricKeyCtor, resolveAlgorithm, hparse]
  · simp [symmetricKeyCtor, resolveAlgorithm, hparse]
  · have hres : resolveAlgorithm ⟨some (.obj (.num n) (some l))⟩ = .ok (.custom n, l) := by
      simp only [resolveAlgorithm, parseAlgorithmToEnum]
      rw [if_neg (by omega), if_neg (by omega), if_neg (by omega), if_neg (by omega),
        if_neg (by omega), if_neg (by omega)]
      simp [hl]
    by_cases hr : raw.length > l
    · exact ⟨⟨.custom n, l, raw.take l, some (raw.drop l), raw⟩,
        by simp [symmetricKeyCtor, hres, hr], rfl, rfl⟩
    · exact ⟨⟨.custom n, l, raw, none, raw⟩,
        by simp [symmetricKeyCtor, hres, hr], rfl, rfl⟩

/-- C5 (witness): the amended resolution behavior at
`s = "des-ede3"`, no explicit length, custom numeric value 99 with
length 16, raw bytes `0..7`. -/
theorem C5_algorithmResolution_witness :
    "des-ede3" ∉ ["aes-128-cbc", "aes-128-gcm", "aes-256-cbc", "aes-256-gcm",
      "aes-256-cbc-hmac-sha512", "chacha20-poly1305"] ∧ 6 ≤ 99 ∧ 16 ≠ 0 ∧
    (symmetricKeyCtor (List.range 8) ⟨some (.obj (.str "des-ede3") none)⟩ =
      .error ("Unsupported algorithm: " ++ "des-ede3") ∧
    symmetricKeyCtor (List.range 8) ⟨some (.prim (.str "des-ede3"))⟩ =
      .error ("Unsupported algorithm: " ++ "des-ede3") ∧
    (∃ k, symmetricKeyCtor (List.range 8) ⟨some (.obj (.num 99) (some 16))⟩ = .ok k ∧
      k.algorithm = .custom 99 ∧ k.length = 16)) :=
  ⟨by decide, by decide, by decide,
    C5_algorithmResolution (List.range 8) "des-ede3" none 99 16 (by decide) (by decide)
      (by decide)⟩

/-- C8: the constructor's key-material slicing — when the raw bytes are
longer than the required key length, the encryption key is the first
`requiredKeyLength` bytes and the MAC key is the rest; otherwise the
encryption key is the raw bytes in full (possibly shorter than
required) and no MAC key is set. -/
theorem C8_keyMaterialSlicing (raw : List Nat) (opts : SymmetricKeyOptions)
    (k : SymmetricKeyModel) (h : symmetricKeyCtor raw opts = .ok k) :
    (raw.length > k.length →
      k.key = raw.take k.length ∧ k.hmacKey = some (raw.drop k.length)) ∧
    (raw.length ≤ k.length → k.key = raw ∧ k.hmacKey = none) := by
  unfold symmetricKeyCtor at h
  cases hres : resolveAlgorithm opts with
  | error e => rw [hres] at h; exact absurd h (by simp)
  | ok p =>
    obtain ⟨alg, len⟩ := p
    rw [hres] at h
    dsimp only at h
    by_cases hr : raw.length > len
    · rw [if_pos hr] at h
      simp only [Except.ok.injEq] at h
      subst h
      exact ⟨fun _ => ⟨rfl, rfl⟩, fun hle => absurd hr (by simp at hle ⊢; omega)⟩
    · rw [if_neg hr] at h
      simp only [Except.ok.injEq] at h
      subst h
      exact ⟨fun hgt => absurd hgt hr, fun _ => ⟨rfl, rfl⟩⟩

/-- C8 (witness): the slicing at a 48-byte raw key resolved as
`aes-256-cbc` (required length 32): encryption key = bytes 0..31,
MAC key = bytes 32..47. -/
theorem C8_keyMaterialSlicing_witness :
    symmetricKeyCtor (List.range 48) ⟨some (.prim (.str "aes-256-cbc"))⟩ =
      .ok ⟨.known "aes-256-cbc", 32, (List.range 48).take 32,
        some ((List.range 48).drop 32), List.range 48⟩ ∧
    (((List.range 48).length > 32 →
      (List.range 48).take 32 = (List.range 48).take 32 ∧
      (some ((List.range 48).drop 32) : Option (List Nat)) =
        some ((List.range 48).drop 32)) ∧
    ((List.range 48).length ≤ 32 →
      (List.range 48).take 32 = List.range 48 ∧
      (some ((List.range 48).drop 32) : Option (List Nat)) = none)) :=
  ⟨by rfl,
    C8_keyMaterialSlicing (List.range 48) ⟨some (.prim (.str "aes-256-cbc"))⟩
      ⟨.known "aes-256-cbc", 32, (List.range 48).take 32,
        some ((List.range 48).drop 32), List.range 48⟩ (by rfl)⟩

/-- C9: IV derivation is a pure function of the key's stored bytes and
resolved length alone — any two key objects agreeing on `#original` and
`length` (whatever their other fields), and any two calls with the same
optional target length, produce byte-identical output; no message enters
the computation and no state is mutated by it. -/
theorem C9_ivDeterminism (k₁ k₂ : SymmetricKeyModel) (stop : Option Nat)
    (horig : k₁.original = k₂.original) (hlen : k₁.length = k₂.length) :
    generateInitializationVector k₁ stop = generateInitializationVector k₂ stop := by
  unfold generateInitializationVector givFold givExtendLoop
  rw [horig, hlen]

/-! ## Claim C6 — cipher-family checks at construction

`AES`'s constructor (aes.ts lines 151-157) wraps the key and throws
`'Invalid algorithm for AES'` when
`this.#key.algorithm.toLowerCase().indexOf('aes') < 0`.  `ChaCha20`'s
constructor (chacha20.ts lines 14-20) throws only in a browser
environment and wraps the key with `{ algorithm: 'chacha20-poly1305' }`
— `SymmetricKey.wrap` (SymmetricKey.ts lines 243-246) returns an
existing `SymmetricKey` unchanged, options ignored, so no family check
ever runs for ChaCha20. -/

/-- Substring search for `"aes"` over the (already lowercase) algorithm
identifier characters. -/
def containsAesChars : List Char → Bool
  | 'a' :: 'e' :: 's' :: _ => true
  | _ :: rest => containsAesChars rest
  | [] => false

/-- The first argument of the cipher constructors: raw bytes or an
already-constructed `SymmetricKey`. -/
inductive KeyOrBytes where
  | bytes (raw : List Nat)
  | material (k : SymmetricKeyModel)
deriving DecidableEq, Repr

/-- `SymmetricKey.wrap`: idempotent — an existing `SymmetricKey` is
returned unchanged (the supplied options are ignored); raw bytes go
through the constructor. -/
def symmetricKeyWrap (key : KeyOrBytes) (opts : SymmetricKeyOptions) :
    Except String SymmetricKeyModel :=
  match key with
  | .material k => .ok k
  | .bytes raw => symmetricKeyCtor raw opts

/-- The `AES` constructor: wrap with the requested variant, then reject
when the wrapped key's algorithm does not contain `"aes"`.  A custom
numeric algorithm also fails there (`number.toLowerCase()` throws). -/
def aesCtor (key : KeyOrBytes) (algorithm : String) :
    Except String SymmetricKeyModel :=
  match symmetricKeyWrap key ⟨some (.prim (.str algorithm))⟩ with
  | .error e => .error e
  | .ok k =>
    match k.algorithm with
    | .known s => if containsAesChars s.toList then .ok k
      else .error "Invalid algorithm for AES"
    | .custom _ => .error "Invalid algorithm for AES"

/-- The `ChaCha20` constructor: reject in a browser environment, then
wrap with `{ algorithm: 'chacha20-poly1305' }` — and nothing else. -/
def chachaCtor (isBrowserEnv : Bool) (key : KeyOrBytes) :
    Except String SymmetricKeyModel :=
  if isBrowserEnv then .error "ChaCha20 is not supported in this environment."
  else symmetricKeyWrap key ⟨some (.prim (.str "chacha20-poly1305"))⟩

/-- C6 (counterexample): constructing a ChaCha20 cipher around key
material typed `aes-256-cbc` does NOT fail — `SymmetricKey.wrap`
returns the AES-typed key unchanged and the ChaCha20 constructor
performs no family check (in a non-browser environment). -/
theorem C6_familyCheck_counterexample :
    chachaCtor false
        (.material ⟨.known "aes-256-cbc", 32, List.range 32, none, List.range 32⟩) =
      .ok ⟨.known "aes-256-cbc", 32, List.range 32, none, List.range 32⟩ ∧
    (AlgId.known "aes-256-cbc" ≠ .known "chacha20-poly1305") := by
  exact ⟨rfl, by decide⟩

/-- C6 (amended): only the AES constructor enforces the family match —
it fails with `'Invalid algorithm for AES'` whenever the wrapped key
material's algorithm identifier does not contain `"aes"`, and accepts
it when it does; the ChaCha20 constructor performs no family check at
all, so (outside a browser) it succeeds around key material of any
algorithm, returning the key unchanged. -/
theorem C6_familyCheck (k : SymmetricKeyModel) (s : String) (alg : String)
    (hk : k.algorithm = .known s) (hno : containsAesChars s.toList = false) :
    aesCtor (.material k) alg = .error "Invalid algorithm for AES" ∧
    (∀ k' : SymmetricKeyModel, ∀ s' : String, k'.algorithm = .known s' →
      containsAesChars s'.toList = true → aesCtor (.material k') alg = .ok k') ∧
    chachaCtor false (.material k) = .ok k := by
  refine ⟨?_, ?_, rfl⟩
  · have hno' : containsAesChars s.data = false := hno
    simp [aesCtor, symmetricKeyWrap, hk, hno']
  · intro k' s' hk' hyes
    have hyes' : containsAesChars s'.data = true := hyes
    simp [aesCtor, symmetricKeyWrap, hk', hyes']

/-- C6 (witness): the amended behavior at a chacha20-typed key (AES
construction fails, ChaCha20 construction succeeds) and an
aes-256-cbc-typed key (AES construction succeeds). -/
theorem C6_familyCheck_witness :
    (SymmetricKeyModel.mk (.known "chacha20-poly1305") 32 (List.range 32) none
        (List.range 32)).algorithm = .known "chacha20-poly1305" ∧
    containsAesChars "chacha20-poly1305".toList = false ∧
    (aesCtor (.material ⟨.known "chacha20-poly1305", 32, List.range 32, none,
        (List.range 32)⟩) "aes-256-cbc" = .error "Invalid algorithm for AES" ∧
      (∀ k' : SymmetricKeyModel, ∀ s' : String, k'.algorithm = .known s' →
        containsAesChars s'.toList = true →
        aesCtor (.material k') "aes-256-cbc" = .ok k') ∧
      chachaCtor false (.material ⟨.known "chacha20-poly1305", 32, List.range 32,
        none, List.range 32⟩) =
        .ok ⟨.known "chacha20-poly1305", 32, List.range 32, none, List.range 32⟩) :=
  ⟨rfl, by decide,
    C6_familyCheck ⟨.known "chacha20-poly1305", 32, List.range 32, none, List.range 32⟩
      "chacha20-poly1305" "aes-256-cbc" rfl (by decide)⟩

/-! ## Claim C10 — the payload type guard of `#DoEncryption`

`AES.#DoEncryption` (aes.ts lines 163-171) and
`ChaCha20.#DoEncryption` (chacha20.ts lines 22-31) open with
`if (typeof data === 'object' && !isPlainObject(data)) throw new
Exception("Cannot encrypt instance of " + data.constructor.name,
'Invalid data type')`.  `isPlainObject` is the external
`typesdk/utils/is` collaborator, modelled with its standard semantics:
true exactly for plain objects — false for arrays, `null` and class
instances. -/

/-- A JS runtime value at the public encrypt interface. -/
inductive JsValue where
  | jsNull
  | undef
  | boolean (b : Bool)
  | number (n : Int)
  | str (s : String)
  | arr (elems : List JsValue)
  | plainObj
  | classInstance (name : String)

/-- JS `typeof`. -/
def jsTypeof : JsValue → String
  | .jsNull => "object"
  | .undef => "undefined"
  | .boolean _ => "boolean"
  | .number _ => "number"
  | .str _ => "string"
  | .arr _ => "object"
  | .plainObj => "object"
  | .classInstance _ => "object"

/-- The external `isPlainObject` collaborator. -/
def isPlainObject : JsValue → Bool
  | .plainObj => true
  | _ => false

/-- `data.constructor.name`; reading `constructor` off `null` or
`undefined` throws a `TypeError`. -/
def constructorName : JsValue → Except String String
  | .jsNull => .error "TypeError: Cannot read properties of null (reading 'constructor')"
  | .undef => .error "TypeError: Cannot read properties of undefined (reading 'constructor')"
  | .boolean _ => .ok "Boolean"
  | .number _ => .ok "Number"
  | .str _ => .ok "String"
  | .arr _ => .ok "Array"
  | .plainObj => .ok "Object"
  | .classInstance n => .ok n

/-- What the guard at the top of `#DoEncryption` does with a payload. -/
inductive GuardOutcome where
  | proceed
  | invalidDataType (message : String)
  | thrownTypeError (message : String)
deriving DecidableEq, Repr

/-- The guard itself: build and throw the `'Invalid data type'`
exception for non-plain objects — evaluating `data.constructor.name`
first, which itself throws on `null`. -/
def encryptionGuard (data : JsValue) : GuardOutcome :=
  if jsTypeof data = "object" && !(isPlainObject data) then
    match constructorName data with
    | .error m => .thrownTypeError m
    | .ok n => .invalidDataType ("Cannot encrypt instance of " ++ n)
  else .proceed

/-- C10: every array payload is rejected with the `'Invalid data type'`
exception (arrays are objects but not plain objects), and a `null`
payload throws a `TypeError` while the exception message reads
`null.constructor` — although both are JSON-serializable. -/
theorem C10_guardRejectsArraysAndNull :
    (∀ elems : List JsValue, encryptionGuard (.arr elems) =
      .invalidDataType "Cannot encrypt instance of Array") ∧
    encryptionGuard .jsNull =
      .thrownTypeError "TypeError: Cannot read properties of null (reading 'constructor')" := by
  exact ⟨fun _ => rfl, rfl⟩

/-! ## Claim C4 — the chunked transport's BlockResult

`BlockCipher.#DoEncryption` (core.ts lines 116-140) encrypts, base64-
encodes, slices with `new Slicer(b64, this.#options.blockSize ?? 512)`,
copies each chunk into a frozen `{index, hash, data}` block, and
returns the frozen literal `{blocks, checksum: slicer.hash, timestamp}`.
The `Slicer` implementation itself is not under src/ (only its callers
are), so it is modelled from the spec below. -/

/-- Modelled from the spec: `ChunkSlicer.slice` splits `contentText`
into ordered, non-overlapping substrings of length `chunkSize` (last
chunk may be shorter), numbered `0..n-1` (the `Slicer` source is
missing from src/; §4.3 of the spec). -/
def sliceChunks (content : List Char) (n : Nat) : List (List Char) :=
  if h : n = 0 ∨ content = [] then []
  else content.take n :: sliceChunks (content.drop n) n
termination_by content.length
decreasing_by
  push_neg at h
  have hpos : 0 < content.length := List.length_pos.mpr h.2
  simp only [List.length_drop]
  omega

/-- Dense 0-based numbering of a list, indices ascending from `i`. -/
def withIndexFrom {α : Type} : Nat → List α → List (Nat × α)
  | _, [] => []
  | i, x :: xs => (i, x) :: withIndexFrom (i + 1) xs

/-- One chunk produced by the slicer: index, content hash, substring. -/
structure SlicerChunk where
  index : Nat
  hash : String
  value : List Char
deriving DecidableEq, Repr

/-- Modelled from the spec: the slicer's chunk list — each substring
paired with its dense index and content hash under the external digest
collaborator (the `Slicer` source is missing from src/; §4.3). -/
def slicerSlice (digest : List Char → String) (content : List Char) (n : Nat) :
    List SlicerChunk :=
  (withIndexFrom 0 (sliceChunks content n)).map (fun p => ⟨p.1, digest p.2, p.2⟩)

/-- A frozen `{index, hash, data}` block of `core.ts`. -/
structure BlockM where
  index : Nat
  hash : String
  data : List Char
deriving DecidableEq, Repr

/-- The frozen `BlockResult` literal of `BlockCipher.#DoEncryption`:
exactly the fields `blocks`, `checksum`, `timestamp`. -/
structure BlockResultM where
  blocks : List BlockM
  checksum : String
  timestamp : Nat
deriving DecidableEq, Repr

/-- `BlockCipher.#DoEncryption` after the cipher/base64 collaborators:
slice the base64 text with `blockSize ?? 512`, copy chunks into blocks,
return `{blocks, checksum: slicer.hash, timestamp}` where the slicer's
`hash` is the digest of the full unsplit content (spec §4.3). -/
def blockCipherDoEncryption (digest : List Char → String) (blockSize : Option Nat)
    (cipherB64 : List Char) (now : Nat) : BlockResultM :=
  let chunks := slicerSlice digest cipherB64 (blockSize.getD 512)
  ⟨chunks.map (fun c => ⟨c.index, c.hash, c.value⟩), digest cipherB64, now⟩

/-- The property names of the frozen object literal returned by
`BlockCipher.#DoEncryption` (core.ts lines 135-139). -/
def blockResultKeys : List String := ["blocks", "checksum", "timestamp"]

/-- The property names of the result literal of the layered
`BlockCipher.#encryptWithLayers` (BlockCipher.ts lines 124-132) — the
only result shape in the layer that carries a `merkleRoot`. -/
def layeredResultKeys : List String :=
  ["blocks", "contentSha512", "contentSignature", "timestamp",
   "keyDerivationIterations", "keyDerivationAlgorithm", "merkleRoot"]

theorem withIndexFrom_mem_le {α : Type} (l : List α) (i : Nat) :
    ∀ p ∈ withIndexFrom i l, i ≤ p.1 := by
  induction l generalizing i with
  | nil => intro p hp; simp [withIndexFrom] at hp
  | cons x xs ih =>
    intro p hp
    rw [withIndexFrom] at hp
    rcases List.mem_cons.mp hp with rfl | hp'
    · exact le_refl _
    · exact le_trans (by omega) (ih (i + 1) p hp')

theorem withIndexFrom_pairwise {α : Type} (l : List α) (i : Nat) :
    List.Pairwise (fun p q => p.1 < q.1) (withIndexFrom i l) := by
  induction l generalizing i with
  | nil => exact List.Pairwise.nil
  | cons x xs ih =>
    rw [withIndexFrom]
    exact List.Pairwise.cons
      (fun q hq => lt_of_lt_of_le (by omega) (withIndexFrom_mem_le xs (i + 1) q hq))
      (ih (i + 1))

theorem withIndexFrom_map_fst {α : Type} (l : List α) (i : Nat) :
    (withIndexFrom i l).map (fun p => p.1) = List.range' i l.length := by
  induction l generalizing i with
  | nil => rfl
  | cons x xs ih => simp [withIndexFrom, List.range'_succ, ih]

/-- C4 (counterexample): the frozen object returned by the chunked
transport's encrypt has exactly the properties `blocks`, `checksum`,
`timestamp` — there is no `merkleRoot` property; a `merkleRoot` exists
only in the result of the separate layered `BlockCipher.ts` variant
(which in turn has no `checksum`). -/
theorem C4_blockResult_counterexample :
    "merkleRoot" ∉ blockResultKeys ∧ "merkleRoot" ∈ layeredResultKeys ∧
    "checksum" ∉ layeredResultKeys := by
  exact ⟨by decide, by decide, by decide⟩

/-- C4 (amended): every `BlockResult` returned by the chunked
transport's encrypt contains blocks carrying strictly ascending dense
indices `0..n-1`, a checksum that is the digest of the full unsplit
base64 content, and a timestamp; the chunk size defaults to 512 when
not configured.  The result carries NO `merkleRoot` field. -/
theorem C4_blockResult (digest : List Char → String) (bs : Option Nat)
    (content : List Char) (now : Nat) :
    List.Pairwise (fun b1 b2 => b1.index < b2.index)
      (blockCipherDoEncryption digest bs content now).blocks ∧
    (blockCipherDoEncryption digest bs content now).blocks.map (fun b => b.index) =
      List.range' 0 (sliceChunks content (bs.getD 512)).length ∧
    (blockCipherDoEncryption digest bs content now).checksum = digest content ∧
    (blockCipherDoEncryption digest bs content now).timestamp = now ∧
    blockCipherDoEncryption digest none content now =
      blockCipherDoEncryption digest (some 512) content now ∧
    "merkleRoot" ∉ blockResultKeys := by
  refine ⟨?_, ?_, rfl, rfl, rfl, by decide⟩
  · show List.Pairwise _
      (((withIndexFrom 0 (sliceChunks content (bs.getD 512))).map
          (fun p => SlicerChunk.mk p.1 (digest p.2) p.2)).map
        (fun c => BlockM.mk c.index c.hash c.value))
    rw [List.map_map, List.pairwise_map]
    exact withIndexFrom_pairwise _ 0
  · show (((withIndexFrom 0 (sliceChunks content (bs.getD 512))).map
          (fun p => SlicerChunk.mk p.1 (digest p.2) p.2)).map
        (fun c => BlockM.mk c.index c.hash c.value)).map (fun b => b.index) = _
    rw [List.map_map, List.map_map]
    exact withIndexFrom_map_fst _ 0

/-- C9 (witness): two key objects sharing raw bytes `0..31` and length
32 but differing in algorithm, sliced key and MAC key derive the same
IV. -/
theorem C9_ivDeterminism_witness :
    (SymmetricKeyModel.mk (.known "aes-256-cbc") 32 (List.range 32) none
        (List.range 32)).original =
      (SymmetricKeyModel.mk (.known "aes-256-gcm") 32 [] (some [])
        (List.range 32)).original ∧
    (SymmetricKeyModel.mk (.known "aes-256-cbc") 32 (List.range 32) none
        (List.range 32)).length =
      (SymmetricKeyModel.mk (.known "aes-256-gcm") 32 [] (some [])
        (List.range 32)).length ∧
    generateInitializationVector
        (SymmetricKeyModel.mk (.known "aes-256-cbc") 32 (List.range 32) none
          (List.range 32)) none =
      generateInitializationVector
        (SymmetricKeyModel.mk (.known "aes-256-gcm") 32 [] (some [])
          (List.range 32)) none :=
  ⟨rfl, rfl,
    C9_ivDeterminism
      ⟨.known "aes-256-cbc", 32, List.range 32, none, List.range 32⟩
      ⟨.known "aes-256-gcm", 32, [], some [], List.range 32⟩ none rfl rfl⟩

end CryptoxSdk
